import Mathlib

/-!
Shallow embedding of the Leaflet.VectorTileLayer tile-to-graphics pipeline
(src/js/VectorTileLayer.js, src/js/FeatureTile.js, src/js/FeatureLayer.js)
together with theorems settling the specification claims about it.

JavaScript data values are embedded as the inductive type `Val`; the style
option, which may be a plain value or a function, is embedded as `StyleOpt`;
legacy per-layer table entries and per-feature-id overrides as `StyleEntry`.
Zoom levels and coordinates are rational numbers, matching JS numerics on the
values the library actually manipulates.
-/

namespace VTL

mutual

/-- Embedding of a JavaScript data value: undefined, null, booleans, numbers,
strings, objects (ordered field lists) and arrays. -/
inductive Val where
  | undefined
  | vnull
  | bool (b : Bool)
  | num (q : Rat)
  | str (s : String)
  | obj (fields : Fields)
  | arr (elems : Elems)
deriving DecidableEq, Repr

/-- Ordered field list of an embedded JavaScript object. -/
inductive Fields where
  | nil
  | cons (key : String) (value : Val) (rest : Fields)
deriving DecidableEq, Repr

/-- Ordered element list of an embedded JavaScript array. -/
inductive Elems where
  | nil
  | cons (value : Val) (rest : Elems)
deriving DecidableEq, Repr

end

/-- Convert a Lean list of values into an embedded JavaScript array body. -/
def elemsOfList : List Val → Elems
  | [] => .nil
  | v :: rest => .cons v (elemsOfList rest)

/-- JavaScript truthiness on embedded values (`!x` tests in the source). -/
def truthy : Val → Bool
  | .undefined => false
  | .vnull => false
  | .bool b => b
  | .num q => q != 0
  | .str s => s ≠ ""
  | .obj _ => true
  | .arr _ => true

/-- Embedding of `a || b` on an optional value: the value if present and
truthy, otherwise the default. -/
def jsOr (o : Option Val) (dflt : Val) : Val :=
  match o with
  | some v => if truthy v then v else dflt
  | none => dflt

/-- Lookup in an embedded JavaScript object used as a map (`tbl[key]`). -/
def getKey {α : Type} (l : List (String × α)) (k : String) : Option α :=
  match l with
  | [] => none
  | (k', v) :: rest => if k' = k then some v else getKey rest k

/-- Property assignment on an embedded JavaScript object used as a map
(`tbl[key] = v`): replace in place or append. -/
def setKey {α : Type} (l : List (String × α)) (k : String) (v : α) :
    List (String × α) :=
  match l with
  | [] => [(k, v)]
  | (k', v') :: rest =>
    if k' = k then (k, v) :: rest else (k', v') :: setKey rest k v

/-- Property deletion on an embedded JavaScript object used as a map
(`delete tbl[key]`). -/
def delKey {α : Type} (l : List (String × α)) (k : String) :
    List (String × α) :=
  match l with
  | [] => []
  | (k', v') :: rest =>
    if k' = k then rest else (k', v') :: delKey rest k

/-- Vector-tile feature type tag for points (`FeatureTypes.Point`). -/
def featureTypePoint : Rat := 1

/-- Vector-tile feature type tag for lines (`FeatureTypes.LineString`). -/
def featureTypeLineString : Rat := 2

/-- Vector-tile feature type tag for polygons (`FeatureTypes.Polygon`). -/
def featureTypePolygon : Rat := 3

/-- Embedding of a decoded vector-tile feature: numeric type tag, properties
object, lazily decoded rings (`loadGeometry`) and tile-local bounding box. -/
structure Feature where
  type : Rat
  properties : Val
  geometry : List (List (Rat × Rat))
  bboxCorners : (Rat × Rat) × (Rat × Rat)
deriving DecidableEq, Repr

/-- Embedding of the feature object as the JavaScript value handed to a
configured style function (the source passes the feature itself). -/
def featureVal (f : Feature) : Val :=
  .obj (.cons "type" (.num f.type) (.cons "properties" f.properties .nil))

/-- Embedding of an entry of the legacy `vectorTileLayerStyles` table or of
the per-feature-id override table: a plain value or a style function called
with `(feature.properties, zoom, feature.type)`. -/
inductive StyleEntry where
  | val (v : Val)
  | fn (f : Val → Val → Val → Val)

/-- JavaScript truthiness of a table entry (`if (m_featureStyle[fId])`). -/
def entryTruthy : StyleEntry → Bool
  | .val v => truthy v
  | .fn _ => true

/-- Evaluate a legacy table entry: a function entry is called with
`(feature.properties, zoom, feature.type)`, a value entry stands as is. -/
def entryApply (e : StyleEntry) (props : Val) (zoom : Rat) (ftype : Rat) :
    Val :=
  match e with
  | .val v => v
  | .fn g => g props (.num zoom) (.num ftype)

/-- Embedding of the `style` option: absent, a plain value, a function of the
three arguments `(feature, layerName, zoom)` as `getFeatureStyle` passes them,
or the `legacyStyle` closure installed by the Leaflet.VectorGrid
compatibility branch. -/
inductive StyleOpt where
  | undefined
  | val (v : Val)
  | fn (f : Val → Val → Val → Val)
  | legacy

/-- JavaScript truthiness of the configured `style` option
(`!options.style` in the compatibility branch). -/
def styleOptTruthy : StyleOpt → Bool
  | .undefined => false
  | .val v => truthy v
  | .fn _ => true
  | .legacy => true

/-- Embedding of the recognized layer options (`defaultOptions` plus the
style-related options the claims are about). -/
structure LayerOptions where
  filter : Option (Feature → String → Rat → Bool) := none
  style : StyleOpt := .undefined
  vectorTileLayerStyles : Option (List (String × StyleEntry)) := none
  getFeatureId : Option (Feature → String) := none
  minDetailZoom : Option Rat := none
  maxDetailZoom : Option Rat := none
  layers : Option (List String) := none
  layerOrder : Option (List String → Rat → List String) := none

/-- Embedding of the `vectorTileLayer` constructor's option processing: the
Leaflet.VectorGrid compatibility branch installs the `legacyStyle` closure as
the `style` option when a legacy table is configured and no style is. -/
def initOptions (opts : LayerOptions) : LayerOptions :=
  if opts.vectorTileLayerStyles.isSome && !styleOptTruthy opts.style then
    { opts with style := .legacy }
  else
    opts

/-- Mutable state owned by one vector-tile layer: its (reassignable) options
and the per-feature-id override table `m_featureStyle`. -/
structure LayerState where
  options : LayerOptions
  featureStyle : List (String × StyleEntry) := []

/-- Table stage of `legacyStyle`: look up the per-layer entry, then let a
truthy per-feature-id override replace it when an id extractor is
configured. -/
def legacyLookup (st : LayerState) (f : Feature) (layerName : String) :
    Option StyleEntry :=
  let base := getKey (st.options.vectorTileLayerStyles.getD []) layerName
  match st.options.getFeatureId with
  | none => base
  | some gid =>
    match getKey st.featureStyle (gid f) with
    | some ov => if entryTruthy ov then some ov else base
    | none => base

/-- Value stage of `legacyStyle`, before the array rule: evaluate the chosen
entry (calling it when it is a function), undefined when no entry exists. -/
def legacyStyleRaw (st : LayerState) (f : Feature) (layerName : String)
    (zoom : Rat) : Val :=
  match legacyLookup st f layerName with
  | some e => entryApply e f.properties zoom f.type
  | none => .undefined

/-- Array rule of `legacyStyle`: an empty array resolves to undefined, a
non-empty array to its first element, anything else stands. -/
def arrayRule : Val → Val
  | .arr .nil => .undefined
  | .arr (.cons x _) => x
  | v => v

/-- Embedding of `legacyStyle` (VectorTileLayer.js lines 112-135). -/
def legacyStyle (st : LayerState) (f : Feature) (layerName : String)
    (zoom : Rat) : Val :=
  arrayRule (legacyStyleRaw st f layerName zoom)

/-- Filter stage of `getFeatureStyle`: a configured filter predicate must
accept the feature; an absent filter accepts everything. -/
def filterPasses (st : LayerState) (f : Feature) (layerName : String)
    (zoom : Rat) : Bool :=
  match st.options.filter with
  | some p => p f layerName zoom
  | none => true

/-- Embedding of `getFeatureStyle` (VectorTileLayer.js lines 285-297): the
filter may reject; a function-valued style option is called with
`(feature, layerName, zoom)`; any other style option is returned as is. -/
def getFeatureStyle (st : LayerState) (f : Feature) (layerName : String)
    (zoom : Rat) : Val :=
  if !filterPasses st f layerName zoom then .undefined
  else
    match st.options.style with
    | .fn g => g (featureVal f) (.str layerName) (.num zoom)
    | .legacy => legacyStyle st f layerName zoom
    | .val v => v
    | .undefined => .undefined

/-- Embedding of one FeatureGraphics record as the tile pipeline sees it: the
builder inputs cached by a feature layer (`feature`, `layerName`, the
`pxPerExtent` scale and the resolved style it was last given). The SVG
internals of the builders are embedded separately below. -/
structure FeatureGraphics where
  feature : Feature
  layerName : String
  pxPerExtent : Rat × Rat
  style : Val
deriving DecidableEq, Repr

/-- Embedding of one tile session (`featureTile`): its coordinate, the tile
render size captured at creation and the ordered `m_layers` list. -/
structure FeatureTile where
  coords : Int × Int × Int
  tileSize : Rat × Rat
  layers : List FeatureGraphics
deriving DecidableEq, Repr

/-- Fresh tile session as `createTile` builds it, with no feature layers. -/
def freshTile (coords : Int × Int × Int) (tileSize : Rat × Rat) :
    FeatureTile :=
  { coords := coords, tileSize := tileSize, layers := [] }

/-- Embedding of one named layer of a decoded vector tile: its extent and its
indexable feature sequence. -/
structure VTileLayer where
  extent : Rat
  features : List Feature
deriving Repr

/-- Embedding of a decoded vector tile: an ordered mapping from layer names
to tile layers. -/
structure VTileData where
  layers : List (String × VTileLayer)
deriving Repr

/-- Embedding of `getOrderedLayers` (VectorTileLayer.js lines 299-307): a
configured allow-list replaces the decoded layer names, then a configured
ordering function reorders them. -/
def getOrderedLayers (st : LayerState) (layerNames : List String)
    (zoom : Rat) : List String :=
  let names := st.options.layers.getD layerNames
  match st.options.layerOrder with
  | some f => f names zoom
  | none => names

/-- Embedding of `addFeature` (FeatureTile.js lines 51-72): resolve the style
at the tile's zoom; a falsy resolution creates nothing; otherwise build a
FeatureGraphics, push it onto `m_layers` and hand it back for attachment. -/
def addFeature (st : LayerState) (tile : FeatureTile) (f : Feature)
    (layerName : String) (pxPerExtent : Rat × Rat) :
    FeatureTile × Option FeatureGraphics :=
  let s := getFeatureStyle st f layerName (tile.coords.2.2 : Rat)
  if !truthy s then (tile, none)
  else
    let fg : FeatureGraphics :=
      { feature := f, layerName := layerName, pxPerExtent := pxPerExtent,
        style := s }
    ({ tile with layers := tile.layers ++ [fg] }, some fg)

/-- Inner loop of `addVectorTile`: add every feature of one tile layer in
order, collecting the FeatureGraphics that were attached. -/
def addFeatures (st : LayerState) (layerName : String)
    (pxPerExtent : Rat × Rat) :
    List Feature → FeatureTile × List FeatureGraphics →
    FeatureTile × List FeatureGraphics
  | [], acc => acc
  | f :: rest, (tile, created) =>
    let (tile', fg) := addFeature st tile f layerName pxPerExtent
    addFeatures st layerName pxPerExtent rest (tile', created ++ fg.toList)

/-- Outer loop of `addVectorTile`: walk the ordered layer names, skipping
names absent from the decoded tile, computing `pxPerExtent` from the tile
size and the layer extent. -/
def addTileLayers (st : LayerState) (vt : VTileData) (tileSize : Rat × Rat) :
    List String → FeatureTile × List FeatureGraphics →
    FeatureTile × List FeatureGraphics
  | [], acc => acc
  | layerName :: rest, acc =>
    match getKey vt.layers layerName with
    | none => addTileLayers st vt tileSize rest acc
    | some tl =>
      let pxPerExtent := (tileSize.1 / tl.extent, tileSize.2 / tl.extent)
      addTileLayers st vt tileSize rest
        (addFeatures st layerName pxPerExtent tl.features acc)

/-- Embedding of `addVectorTile` (FeatureTile.js lines 74-93), returning the
populated tile and the FeatureGraphics attached along the way. -/
def addVectorTile (st : LayerState) (tile : FeatureTile) (vt : VTileData) :
    FeatureTile × List FeatureGraphics :=
  addTileLayers st vt tile.tileSize
    (getOrderedLayers st (vt.layers.map Prod.fst) (tile.coords.2.2 : Rat))
    (tile, [])

/-- Embedding of `tileId`: the registry key of a tile coordinate. -/
def tileId (coords : Int × Int × Int) : String :=
  toString coords.1 ++ "|" ++ toString coords.2.1 ++ "|" ++
    toString coords.2.2

/-- Host-facing mutable state of the layer: the `m_featureTiles` registry and
the set of FeatureGraphics currently attached to the map as interactive
targets (`addFeatureLayer` adds, `removeFeatureLayer` removes). -/
structure World where
  featureTiles : List (String × FeatureTile)
  attached : List FeatureGraphics
deriving DecidableEq, Repr

/-- Registry half of `createTile` (VectorTileLayer.js lines 171-187): create
a fresh tile session, register it, and hand back the session object captured
by the pending fetch's completion closure. -/
def createTileStart (w : World) (coords : Int × Int × Int)
    (tileSize : Rat × Rat) : World × FeatureTile :=
  let t := freshTile coords tileSize
  ({ w with featureTiles := setKey w.featureTiles (tileId coords) t }, t)

/-- Embedding of the `tileunload` handler (VectorTileLayer.js lines 149-158):
an unknown coordinate is ignored; otherwise every FeatureGraphics of the
session is detached and the session is dropped from the registry. -/
def onTileUnload (w : World) (coords : Int × Int × Int) : World :=
  match getKey w.featureTiles (tileId coords) with
  | none => w
  | some t =>
    { featureTiles := delKey w.featureTiles (tileId coords),
      attached := w.attached.filter (fun fg => !t.layers.contains fg) }

/-- Embedding of a JavaScript Error value. -/
structure JsError where
  message : String
deriving DecidableEq, Repr

/-- Embedding of `err(...args)`: joins its arguments with ": ". -/
def errJoin (args : List String) : JsError :=
  ⟨String.intercalate ": " args⟩

/-- Embedding of a fetch response as `load` inspects it. -/
structure JsResponse where
  ok : Bool
  status : Nat
  statusText : String
  body : List Nat
deriving DecidableEq, Repr

/-- Embedding of `load` (VectorTileLayer.js lines 78-87): a successful
response resolves to its bytes; a 404 resolves to no buffer at all; any other
failure status rejects with the joined error. -/
def load (url : String) (response : JsResponse) :
    Except JsError (Option (List Nat)) :=
  if response.ok then .ok (some response.body)
  else if response.status ≠ 404 then
    .error (errJoin [url, toString response.status, response.statusText])
  else .ok none

/-- Completion continuation of `createTile` (VectorTileLayer.js lines
176-184): on fetch rejection call `done` with the error; on resolution decode
the buffer, populate the session object captured by the closure — attaching
every accepted feature — and call `done` without an error. The registry entry
is updated only if it still holds the captured session; the closure itself
never consults the registry. -/
def tileFetchDone (st : LayerState) (w : World) (coords : Int × Int × Int)
    (capturedTile : FeatureTile) (result : Except JsError (Option (List Nat)))
    (decode : Option (List Nat) → VTileData) : World × Option JsError :=
  match result with
  | .error e => (w, some e)
  | .ok buf =>
    let (t', created) := addVectorTile st capturedTile (decode buf)
    let tiles' :=
      if getKey w.featureTiles (tileId coords) = some capturedTile then
        setKey w.featureTiles (tileId coords) t'
      else w.featureTiles
    ({ featureTiles := tiles', attached := w.attached ++ created }, none)

/-- Embedding of the return value of a chainable JavaScript method
(`return self`). -/
inductive JsRet where
  | selfRef
deriving DecidableEq, Repr

/-- Embedding of `setStyle` (VectorTileLayer.js lines 243-258): store the
style option, then walk every live feature layer re-resolving and re-applying
its style, and return the layer itself. -/
def layerSetStyle (st : LayerState) (w : World) (style : StyleOpt) :
    LayerState × World × JsRet :=
  let st' := { st with options := { st.options with style := style } }
  let w' :=
    { w with
      featureTiles := w.featureTiles.map (fun idTile =>
        (idTile.1,
          { idTile.2 with
            layers := idTile.2.layers.map (fun fg =>
              { fg with
                style := getFeatureStyle st' fg.feature fg.layerName
                  (idTile.2.coords.2.2 : Rat) }) })) }
  (st', w', .selfRef)

/-- Embedding of `setFeatureStyle` (VectorTileLayer.js lines 261-266): store
the per-id override, trigger a full restyle pass, return the layer itself. -/
def setFeatureStyle (st : LayerState) (w : World) (id : String)
    (style : StyleEntry) : LayerState × World × JsRet :=
  let st1 := { st with featureStyle := setKey st.featureStyle id style }
  let r := layerSetStyle st1 w st1.options.style
  (r.1, r.2.1, .selfRef)

/-- Embedding of `resetFeatureStyle` (VectorTileLayer.js lines 269-274):
delete the per-id override, trigger a full restyle pass, return the layer
itself. -/
def resetFeatureStyle (st : LayerState) (w : World) (id : String) :
    LayerState × World × JsRet :=
  let st1 := { st with featureStyle := delKey st.featureStyle id }
  let r := layerSetStyle st1 w st1.options.style
  (r.1, r.2.1, .selfRef)

/-- Embedding of `clampZoom`'s second test (VectorTileLayer.js lines
204-208): a defined `maxDetailZoom` caps the zoom from above. -/
def clampUpper (maxDetailZoom : Option Rat) (zoom : Rat) : Rat :=
  match maxDetailZoom with
  | some hi => if hi < zoom then hi else zoom
  | none => zoom

/-- Embedding of `clampZoom` (VectorTileLayer.js lines 197-209): a defined
`minDetailZoom` lifts the zoom from below, then a defined `maxDetailZoom`
caps it from above. -/
def clampZoom (minDetailZoom maxDetailZoom : Option Rat) (zoom : Rat) : Rat :=
  match minDetailZoom with
  | some lo => if zoom < lo then lo else clampUpper maxDetailZoom zoom
  | none => clampUpper maxDetailZoom zoom

/-- Embedding of a geographic coordinate produced by the host map's
`unproject`. -/
structure LatLng where
  lat : Rat
  lng : Rat
deriving DecidableEq, Repr

/-- Embedding of a Leaflet `LatLngBounds` rectangle. -/
structure LatLngBounds where
  minLat : Rat
  maxLat : Rat
  minLng : Rat
  maxLng : Rat
deriving DecidableEq, Repr

/-- Modelled from the spec: the external Leaflet `latLngBounds(c1, c2)`
constructor, normalizing the two corners into a rectangle. -/
def latLngBoundsOf (a b : LatLng) : LatLngBounds :=
  ⟨min a.lat b.lat, max a.lat b.lat, min a.lng b.lng, max a.lng b.lng⟩

/-- Modelled from the spec: the external Leaflet `bounds.extend`, the union
of two rectangles. -/
def extendBounds (x y : LatLngBounds) : LatLngBounds :=
  ⟨min x.minLat y.minLat, max x.maxLat y.maxLat,
   min x.minLng y.minLng, max x.maxLng y.maxLng⟩

/-- Embedding of `scalePoint`: componentwise scaling of a tile-local point by
`pxPerExtent`. -/
def scalePoint (p : Rat × Rat) (pxPerExtent : Rat × Rat) : Rat × Rat :=
  (p.1 * pxPerExtent.1, p.2 * pxPerExtent.2)

/-- Embedding of a feature layer's `bbox()`: the feature's tile-local corners
scaled into render space (Leaflet `bounds` normalizes the corners; the
claims only consume the pair). -/
def fgBbox (fg : FeatureGraphics) : (Rat × Rat) × (Rat × Rat) :=
  (scalePoint fg.feature.bboxCorners.1 fg.pxPerExtent,
   scalePoint fg.feature.bboxCorners.2 fg.pxPerExtent)

/-- Embedding of `tile.global(p)`: tile-local render coordinates offset by
the tile's position in the global pixel grid. -/
def tileGlobal (t : FeatureTile) (p : Rat × Rat) : Rat × Rat :=
  ((t.coords.1 : Rat) * t.tileSize.1 + p.1,
   (t.coords.2.1 : Rat) * t.tileSize.2 + p.2)

/-- Bounds contribution of the feature layers of one tile, folded in
registry order as `eachFeatureLayer` walks them. -/
def tileBoundsFold (unproject : Rat × Rat → Int → LatLng) (t : FeatureTile) :
    Option LatLngBounds → Option LatLngBounds :=
  fun acc =>
    t.layers.foldl (fun acc fg =>
      let bb := fgBbox fg
      let tb := latLngBoundsOf
        (unproject (tileGlobal t bb.1) t.coords.2.2)
        (unproject (tileGlobal t bb.2) t.coords.2.2)
      match acc with
      | none => some tb
      | some b => some (extendBounds b tb)) acc

/-- Embedding of `getBounds` (VectorTileLayer.js lines 325-348): fold the
bbox of every live feature layer, mapped through the tile-to-global transform
and the host map's `unproject`, into one rectangle; undefined when no live
session has any feature. -/
def getBounds (unproject : Rat × Rat → Int → LatLng) (w : World) :
    Option LatLngBounds :=
  w.featureTiles.foldl (fun acc idTile => tileBoundsFold unproject idTile.2 acc)
    none

/-- Concatenation of all live feature layers in registry walk order, as
`eachFeatureLayer` visits them during a restyle pass. -/
def allFeatureGraphics (w : World) : List FeatureGraphics :=
  w.featureTiles.flatMap (fun idTile => idTile.2.layers)

/-- Embedding of one SVG element without children: its tag and its ordered
attribute list. -/
structure SvgNode where
  tag : String
  attrs : List (String × Val)
deriving DecidableEq, Repr

/-- Embedding of `element.setAttribute`. -/
def setAttrN (e : SvgNode) (k : String) (v : Val) : SvgNode :=
  { e with attrs := setKey e.attrs k v }

/-- Embedding of `element.removeAttribute`. -/
def removeAttrN (e : SvgNode) (k : String) : SvgNode :=
  { e with attrs := delKey e.attrs k }

/-- Embedding of the style object handed to a feature-layer builder: the
recognized keys, each possibly absent. -/
structure PathStyle where
  stroke : Option Val := none
  color : Option Val := none
  opacity : Option Val := none
  weight : Option Val := none
  lineCap : Option Val := none
  lineJoin : Option Val := none
  dashArray : Option Val := none
  dashOffset : Option Val := none
  fill : Option Val := none
  fillColor : Option Val := none
  fillOpacity : Option Val := none
  fillRule : Option Val := none
  className : Option Val := none
  interactive : Option Val := none
  interactionWeight : Option Val := none

/-- Embedding of Leaflet's `extend({}, base, over)` on style objects:
fieldwise, a key present in the override wins. -/
def extendStyle (base over : PathStyle) : PathStyle :=
  { stroke := over.stroke <|> base.stroke,
    color := over.color <|> base.color,
    opacity := over.opacity <|> base.opacity,
    weight := over.weight <|> base.weight,
    lineCap := over.lineCap <|> base.lineCap,
    lineJoin := over.lineJoin <|> base.lineJoin,
    dashArray := over.dashArray <|> base.dashArray,
    dashOffset := over.dashOffset <|> base.dashOffset,
    fill := over.fill <|> base.fill,
    fillColor := over.fillColor <|> base.fillColor,
    fillOpacity := over.fillOpacity <|> base.fillOpacity,
    fillRule := over.fillRule <|> base.fillRule,
    className := over.className <|> base.className,
    interactive := over.interactive <|> base.interactive,
    interactionWeight := over.interactionWeight <|> base.interactionWeight }

/-- JavaScript truthiness of a possibly absent style key. -/
def optTruthy (o : Option Val) : Bool :=
  match o with
  | some v => truthy v
  | none => false

/-- Modelled from Leaflet (external collaborator): `Path.prototype.options`,
the stroke and fill defaults merged under every path style. -/
def pathPrototypeOptions : PathStyle :=
  { stroke := some (.bool true),
    color := some (.str "#3388ff"),
    opacity := some (.num 1),
    weight := some (.num 3),
    lineCap := some (.str "round"),
    lineJoin := some (.str "round"),
    dashArray := some .vnull,
    dashOffset := some .vnull,
    fill := some (.bool false),
    fillColor := some .vnull,
    fillOpacity := some (.num (1/5)),
    fillRule := some (.str "evenodd"),
    interactive := some (.bool true) }

/-- Modelled from Leaflet (external collaborator): `Polygon.prototype.options`,
the path defaults with fill enabled. -/
def polygonPrototypeOptions : PathStyle :=
  { pathPrototypeOptions with fill := some (.bool true) }

/-- Embedding of `applyPathStyle` (FeatureLayer.js lines 103-145): merge the
given style over the geometry-class prototype defaults, then set or remove
the stroke and fill presentation attributes accordingly. -/
def applyPathStyleN (featureType : Rat) (p : SvgNode) (style : PathStyle) :
    SvgNode :=
  let o := extendStyle
    (if featureType = featureTypePolygon then polygonPrototypeOptions
     else pathPrototypeOptions) style
  let p1 :=
    if optTruthy o.stroke then
      let q := setAttrN p "stroke" (o.color.getD .undefined)
      let q := setAttrN q "stroke-opacity" (o.opacity.getD .undefined)
      let q := setAttrN q "stroke-width" (o.weight.getD .undefined)
      let q := setAttrN q "stroke-linecap" (o.lineCap.getD .undefined)
      let q := setAttrN q "stroke-linejoin" (o.lineJoin.getD .undefined)
      let q :=
        if optTruthy o.dashArray then
          setAttrN q "stroke-dasharray" (o.dashArray.getD .undefined)
        else removeAttrN q "stroke-dasharray"
      if optTruthy o.dashOffset then
        setAttrN q "stroke-dashoffset" (o.dashOffset.getD .undefined)
      else removeAttrN q "stroke-dashoffset"
    else setAttrN p "stroke" (.str "none")
  if optTruthy o.fill then
    let q := setAttrN p1 "fill" (jsOr o.fillColor (o.color.getD .undefined))
    let q := setAttrN q "fill-opacity" (o.fillOpacity.getD .undefined)
    setAttrN q "fill-rule" (jsOr o.fillRule (.str "evenodd"))
  else setAttrN p1 "fill" (.str "none")

/-- String content of a string-valued class name, as `DomUtil.addClass`
consumes it. -/
def classStr : Val → String
  | .str s => s
  | _ => ""

/-- Class list of an element, read from its class attribute. -/
def getClasses (attrs : List (String × Val)) : List Val :=
  match getKey attrs "class" with
  | some (.arr es) => listOfElems es
  | _ => []
where
  /-- Class attribute decoding back into a Lean list. -/
  listOfElems : Elems → List Val
    | .nil => []
    | .cons v rest => v :: listOfElems rest

/-- Modelled from Leaflet (external collaborator): `DomUtil.addClass`, adding
a class token if not already present. -/
def addClassA (attrs : List (String × Val)) (c : String) :
    List (String × Val) :=
  let cs := getClasses attrs
  if cs.contains (.str c) then attrs
  else setKey attrs "class" (.arr (elemsOfList (cs ++ [.str c])))

/-- Modelled from Leaflet (external collaborator): `DomUtil.removeClass`,
removing a class token. -/
def removeClassA (attrs : List (String × Val)) (c : String) :
    List (String × Val) :=
  setKey attrs "class" (.arr (elemsOfList
    ((getClasses attrs).filter (fun v => v ≠ .str c))))

/-- Embedding of `applyBasicStyle` (FeatureLayer.js lines 84-101): toggle the
interactive pointer-events and class, and add a configured class name. -/
def applyBasicStyleAttrs (attrs : List (String × Val)) (style : PathStyle) :
    List (String × Val) :=
  let attrs :=
    if optTruthy style.interactive then
      addClassA (setKey attrs "pointer-events" (.str "auto"))
        "leaflet-interactive"
    else delKey (removeClassA attrs "leaflet-interactive") "pointer-events"
  if optTruthy style.className then
    addClassA attrs (classStr (style.className.getD .undefined))
  else attrs

/-- Modelled from the spec: injective encoding of the path-data string the
external `SVG.pointsToPath` serializer produces; it carries exactly the
scaled point sequences of the rings and whether each ring closes, which is
all the serialized string carries. -/
def pointsToPath (rings : List (List (Rat × Rat))) (closed : Bool) : Val :=
  .obj (.cons "rings"
    (.arr (elemsOfList (rings.map (fun ring =>
      .arr (elemsOfList (ring.map (fun p =>
        .arr (elemsOfList [.num p.1, .num p.2]))))))))
    (.cons "closed" (.bool closed) .nil))

/-- State of a path feature layer's drawables: the visible path, the optional
interaction path, and the container group's attributes when grouped. -/
structure PathLayerBuilt where
  visiblePath : SvgNode
  interactionPath : Option SvgNode
  groupAttrs : List (String × Val)
  grouped : Bool
deriving DecidableEq, Repr

/-- Embedding of an element tree root as `graphics` exposes it: a lone path,
or a group holding child paths. -/
inductive GraphicsNode where
  | single (p : SvgNode)
  | group (attrs : List (String × Val)) (children : List SvgNode)
deriving DecidableEq, Repr

/-- Root drawable of a built path feature layer: the group with its two
coincident paths in append order when grouped, else the visible path. -/
def graphicsOf (b : PathLayerBuilt) : GraphicsNode :=
  if b.grouped then
    .group b.groupAttrs
      ([b.visiblePath] ++ (match b.interactionPath with
        | some ip => [ip]
        | none => []))
  else .single b.visiblePath

/-- Embedding of `featurePathLayer`'s `createGraphics` (FeatureLayer.js lines
175-203): serialize the scaled geometry once; for an interactive LineString
build a second, coincident path styled with a wide stroke of weight
`interactionWeight || 10` and opacity 0.20, and group it with the visible
path; otherwise the visible path alone is the root. -/
def featurePathLayerCreate (feature : Feature) (pxPerExtent : Rat × Rat)
    (options : PathStyle) : PathLayerBuilt :=
  let pathPoints := pointsToPath
    (feature.geometry.map (fun ring =>
      ring.map (fun p => scalePoint p pxPerExtent)))
    (feature.type = featureTypePolygon)
  let visiblePath := setAttrN ⟨"path", []⟩ "d" pathPoints
  if feature.type = featureTypeLineString && optTruthy options.interactive
  then
    let ip := setAttrN ⟨"path", []⟩ "d" pathPoints
    let ip := applyPathStyleN feature.type ip
      { opacity := some (.num (1/5)),
        weight := some (jsOr options.interactionWeight (.num 10)) }
    { visiblePath := visiblePath, interactionPath := some ip,
      groupAttrs := [], grouped := true }
  else
    { visiblePath := visiblePath, interactionPath := none,
      groupAttrs := [], grouped := false }

/-- Embedding of `featurePathLayer`'s `setStyle` (FeatureLayer.js lines
170-173): apply the basic style to the root drawable and the path style to
the visible path. -/
def featurePathLayerSetStyle (featureType : Rat) (b : PathLayerBuilt)
    (style : PathStyle) : PathLayerBuilt :=
  let b1 :=
    if b.grouped then
      { b with groupAttrs := applyBasicStyleAttrs b.groupAttrs style }
    else
      { b with visiblePath :=
        ⟨b.visiblePath.tag, applyBasicStyleAttrs b.visiblePath.attrs style⟩ }
  { b1 with visiblePath := applyPathStyleN featureType b1.visiblePath style }

/-- Path feature layer as the pipeline builds it for a resolved style:
`createGraphics` followed by the application of that style, the construction
sequence the builders perform (compare `applyOptions` in the sibling builder
implementations, which call `setStyle` at build time). -/
def buildPathFeature (feature : Feature) (pxPerExtent : Rat × Rat)
    (style : PathStyle) : PathLayerBuilt :=
  featurePathLayerSetStyle feature.type
    (featurePathLayerCreate feature pxPerExtent style) style

/-- Stroke presentation attributes, the attribute keys `applyPathStyle`
drives from the stroke half of a style. -/
def strokeAttrKeys : List String :=
  ["stroke", "stroke-opacity", "stroke-width", "stroke-linecap",
   "stroke-linejoin", "stroke-dasharray", "stroke-dashoffset"]

/-- Fill presentation attributes, the attribute keys `applyPathStyle` drives
from the fill half of a style. -/
def fillAttrKeys : List String := ["fill", "fill-opacity", "fill-rule"]

/-- Attribute list with the entries at the given keys dropped, used to
compare two elements outside a set of presentation attributes. -/
def dropKeys (ks : List String) (attrs : List (String × Val)) :
    List (String × Val) :=
  attrs.filter (fun kv => !(ks.contains kv.1))

/-- Sample decoded feature used by concrete witnesses: a two-point line with
a one-field properties object. -/
def sampleFeature : Feature :=
  { type := featureTypeLineString,
    properties := .obj (.cons "name" (.str "main") .nil),
    geometry := [[(0, 0), (10, 0)]],
    bboxCorners := ((0, 0), (10, 0)) }

/-- Sample fresh tile session at coordinate (0,0,3) used by witnesses. -/
def sampleTile : FeatureTile := freshTile (0, 0, 3) (256, 256)

/-- Sample decoded vector tile holding one feature in one layer. -/
def sampleVT : VTileData :=
  { layers := [("roads", { extent := 4096, features := [sampleFeature] })] }

/-- Sample host unprojection used by witnesses touching bounds. -/
def sampleUnproject : Rat × Rat → Int → LatLng :=
  fun p _ => ⟨p.2, p.1⟩

/-- Style resolution as claim C1 words the explicit-function path: the
configured function applied to the feature's properties map, the zoom level
and the feature's geometry type, stated for comparison with the source's
`getFeatureStyle`. -/
def getFeatureStyleSpecC1 (g : Val → Val → Val → Val) (f : Feature)
    (zoom : Rat) : Val :=
  g f.properties (.num zoom) (.num f.type)

/-- Style function returning its first argument, separating the two calling
conventions. -/
def c1Fn : Val → Val → Val → Val := fun a _ _ => a

/-- Layer state configured with the explicit style function `c1Fn`. -/
def c1State : LayerState := ⟨initOptions { style := .fn c1Fn }, []⟩

/-- Layer state for the C3 witness: legacy table entry "A" for the layer,
override "B" registered for id 42. -/
def c3State : LayerState :=
  ⟨initOptions
    { vectorTileLayerStyles := some [("roads", .val (.str "A"))],
      getFeatureId := some (fun _ => "42") },
   [("42", .val (.str "B"))]⟩

/-- Layer state for the first C4 witness: a per-layer style function
returning the empty array. -/
def c4StateEmpty : LayerState :=
  ⟨initOptions
    { vectorTileLayerStyles :=
        some [("roads", .fn (fun _ _ _ => .arr .nil))] },
   []⟩

/-- Layer state for the second C4 witness: a per-layer array entry with two
style objects. -/
def c4StateFirst : LayerState :=
  ⟨initOptions
    { vectorTileLayerStyles :=
        some [("roads", .val (.arr (.cons (.str "S1")
          (.cons (.str "S2") .nil))))] },
   []⟩

/-- Layer state for the C5 witness: an all-rejecting filter over a static
style. -/
def c5State : LayerState :=
  ⟨initOptions
    { filter := some (fun _ _ _ => false),
      style := .val (.obj (.cons "color" (.str "red") .nil)) },
   []⟩

/-- Sample successful response used by the C7 witness. -/
def r200 : JsResponse := ⟨true, 200, "OK", [1, 2]⟩

/-- Sample 404 response used by the C7 witness. -/
def r404 : JsResponse := ⟨false, 404, "Not Found", []⟩

/-- Sample server-error response used by the C7 witness. -/
def r500 : JsResponse := ⟨false, 500, "Server Error", []⟩

/-- Decoder used by witnesses, yielding a tile with no layers for any
buffer. -/
def decodeEmpty : Option (List Nat) → VTileData := fun _ => ⟨[]⟩

/-- Options used by the stale-completion run: a static truthy style. -/
def c2Options : LayerOptions :=
  { style := .val (.obj (.cons "color" (.str "red") .nil)) }

/-- Layer state used by the stale-completion run. -/
def c2State : LayerState := ⟨initOptions c2Options, []⟩

/-- Tile coordinate used by the stale-completion run. -/
def c2Coords : Int × Int × Int := (0, 0, 3)

/-- Stale-completion run: create a tile, unload it while its fetch is still
pending, then let the fetch complete with a one-feature tile, exactly as the
source sequences these steps. -/
def c2Run : World × Option JsError :=
  let r1 := createTileStart ⟨[], []⟩ c2Coords (256, 256)
  let w2 := onTileUnload r1.1 c2Coords
  tileFetchDone c2State w2 c2Coords r1.2 (.ok (some [1]))
    (fun _ => sampleVT)

/-- Stroke and fill presentation attributes together: every attribute key
`applyPathStyle` ever writes or removes. -/
def strokeFillKeys : List String := strokeAttrKeys ++ fillAttrKeys

/-- Interactive line style with no explicit stroke or fill keys, used by the
C6 witness. -/
def c6Style : PathStyle := { interactive := some (.bool true) }

/-- Path data of the sample feature scaled by the unit factor. -/
def c6DV : Val :=
  pointsToPath (sampleFeature.geometry.map (fun ring =>
    ring.map (fun p => scalePoint p (1, 1)))) false

/-- Interaction path built for the sample feature under `c6Style`. -/
def c6IP : SvgNode :=
  applyPathStyleN sampleFeature.type ⟨"path", [("d", c6DV)]⟩
    { opacity := some (.num (1/5)),
      weight := some (jsOr c6Style.interactionWeight (.num 10)) }

/-- Interactive line style that also enables fill, used by the C6
counterexample. -/
def c6FillStyle : PathStyle :=
  { stroke := some (.bool true), fill := some (.bool true),
    fillColor := some (.str "red"), interactive := some (.bool true) }

theorem getKey_setKey_self {α : Type} (l : List (String × α)) (k : String)
    (v : α) : getKey (setKey l k v) k = some v := by
  induction l with
  | nil => simp [getKey, setKey]
  | cons hd tl ih =>
    obtain ⟨a, b⟩ := hd
    by_cases h : a = k <;> simp [getKey, setKey, h, ih]

theorem getKey_setKey_ne {α : Type} (l : List (String × α)) {k k' : String}
    (v : α) (h : k' ≠ k) : getKey (setKey l k v) k' = getKey l k' := by
  induction l with
  | nil => simp [getKey, setKey, Ne.symm h]
  | cons hd tl ih =>
    obtain ⟨a, b⟩ := hd
    by_cases hk : a = k
    · simp [getKey, setKey, hk, Ne.symm h]
    · by_cases hk' : a = k' <;> simp [getKey, setKey, hk, hk', h, ih]

theorem getKey_delKey_ne {α : Type} (l : List (String × α)) {k k' : String}
    (h : k' ≠ k) : getKey (delKey l k) k' = getKey l k' := by
  induction l with
  | nil => simp [getKey, delKey]
  | cons hd tl ih =>
    obtain ⟨a, b⟩ := hd
    by_cases hk : a = k
    · subst hk
      simp [getKey, delKey, Ne.symm h]
    · by_cases hk' : a = k' <;> simp [getKey, delKey, hk, hk', h, ih]

theorem delKey_setKey_of_absent {α : Type} (l : List (String × α))
    (k : String) (v : α) (h : getKey l k = none) :
    delKey (setKey l k v) k = l := by
  induction l with
  | nil => simp [getKey, setKey, delKey]
  | cons hd tl ih =>
    obtain ⟨a, b⟩ := hd
    by_cases hk : a = k
    · simp [getKey, hk] at h
    · simp [getKey, hk] at h
      simp [setKey, delKey, hk, ih h]

theorem dropKeys_setKey_mem (ks : List String) (l : List (String × Val))
    {k : String} (v : Val) (h : k ∈ ks) :
    dropKeys ks (setKey l k v) = dropKeys ks l := by
  induction l with
  | nil => simp [dropKeys, setKey, h]
  | cons hd tl ih =>
    obtain ⟨a, b⟩ := hd
    by_cases hk : a = k
    · subst hk
      simp [dropKeys, setKey, h]
    · simp only [setKey, if_neg hk]
      simp only [dropKeys, List.filter_cons] at ih ⊢
      rw [ih]

theorem dropKeys_delKey_mem (ks : List String) (l : List (String × Val))
    {k : String} (h : k ∈ ks) :
    dropKeys ks (delKey l k) = dropKeys ks l := by
  induction l with
  | nil => simp [dropKeys, delKey]
  | cons hd tl ih =>
    obtain ⟨a, b⟩ := hd
    by_cases hk : a = k
    · subst hk
      simp [dropKeys, delKey, h]
    · simp only [delKey, if_neg hk]
      simp only [dropKeys, List.filter_cons] at ih ⊢
      rw [ih]

theorem getKey_dropKeys_not_mem (ks : List String) (l : List (String × Val))
    {k : String} (h : k ∉ ks) :
    getKey (dropKeys ks l) k = getKey l k := by
  induction l with
  | nil => simp [dropKeys, getKey]
  | cons hd tl ih =>
    obtain ⟨a, b⟩ := hd
    by_cases hk : a = k
    · subst hk
      simp [dropKeys, getKey, h]
    · by_cases hm : a ∈ ks <;> simp [dropKeys, getKey, hk, hm, ih] at ih ⊢
      · exact ih
      · exact ih

/-- C8: for every zoom z, clampZoom returns z unchanged when both detail
bounds are undefined or z lies within them, returns minDetailZoom when
z < minDetailZoom, returns maxDetailZoom when z > maxDetailZoom, and is
idempotent and monotonic; the bounds, when both configured, form a range. -/
theorem clampZoom_spec (minD maxD : Option Rat)
    (hwf : ∀ lo hi, minD = some lo → maxD = some hi → lo ≤ hi) :
    ((minD = none ∧ maxD = none) → ∀ z, clampZoom minD maxD z = z)
  ∧ (∀ lo z, minD = some lo → z < lo → clampZoom minD maxD z = lo)
  ∧ (∀ hi z, maxD = some hi → hi < z → clampZoom minD maxD z = hi)
  ∧ (∀ z, (∀ lo, minD = some lo → lo ≤ z) →
      (∀ hi, maxD = some hi → z ≤ hi) → clampZoom minD maxD z = z)
  ∧ (∀ z, clampZoom minD maxD (clampZoom minD maxD z) = clampZoom minD maxD z)
  ∧ (∀ a b, a ≤ b → clampZoom minD maxD a ≤ clampZoom minD maxD b) := by
  refine ⟨?_, ?_, ?_, ?_, ?_, ?_⟩
  · rintro ⟨rfl, rfl⟩ z
    simp [clampZoom, clampUpper]
  · rintro lo z rfl hz
    simp [clampZoom, hz]
  · rintro hi z rfl hz
    rcases hm : minD with _ | lo
    · simp [clampZoom, clampUpper, hz]
    · have hlh := hwf lo hi hm rfl
      have hzlo : ¬z < lo := by linarith
      simp [clampZoom, clampUpper, hzlo, hz]
  · intro z h1 h2
    rcases hm : minD with _ | lo <;> rcases hx : maxD with _ | hi <;>
      simp only [clampZoom, clampUpper]
    · rw [if_neg (not_lt.mpr (h2 hi hx))]
    · rw [if_neg (not_lt.mpr (h1 lo hm))]
    · rw [if_neg (not_lt.mpr (h1 lo hm)), if_neg (not_lt.mpr (h2 hi hx))]
  · intro z
    rcases hm : minD with _ | lo <;> rcases hx : maxD with _ | hi <;>
      simp only [clampZoom, clampUpper]
    · split_ifs <;> linarith
    · split_ifs <;> linarith
    · have := hwf lo hi hm hx
      split_ifs <;> linarith
  · intro a b hab
    rcases hm : minD with _ | lo <;> rcases hx : maxD with _ | hi <;>
      simp only [clampZoom, clampUpper]
    · exact hab
    · split_ifs <;> linarith
    · split_ifs <;> linarith
    · have := hwf lo hi hm hx
      split_ifs <;> linarith

/-- Witness for C8 at the concrete configuration min 2, max 5. -/
theorem clampZoom_spec_witness :
    clampZoom (some 2) (some 5) 7 = 5 ∧ clampZoom (some 2) (some 5) 0 = 2 ∧
    clampZoom (some 2) (some 5) 3 = 3 := by
  have h := clampZoom_spec (some 2) (some 5)
    (by
      intro lo hi h1 h2
      injection h1 with h1
      injection h2 with h2
      subst h1
      subst h2
      norm_num)
  refine ⟨h.2.2.1 5 7 rfl (by norm_num), h.2.1 2 0 rfl (by norm_num),
    h.2.2.2.1 3 ?_ ?_⟩
  · intro lo hlo
    injection hlo with hlo
    subst hlo
    norm_num
  · intro hi hhi
    injection hhi with hhi
    subst hhi
    norm_num

/-- C9: for a feature id with no registered override, setFeatureStyle then
resetFeatureStyle restores the override table and hence every subsequent
style resolution, and both calls return the layer itself. -/
theorem setResetFeatureStyle_restores (st : LayerState) (w : World)
    (id : String) (s : StyleEntry)
    (h : getKey st.featureStyle id = none) :
    (resetFeatureStyle (setFeatureStyle st w id s).1
        (setFeatureStyle st w id s).2.1 id).1.featureStyle = st.featureStyle
  ∧ (resetFeatureStyle (setFeatureStyle st w id s).1
        (setFeatureStyle st w id s).2.1 id).1 = st
  ∧ (setFeatureStyle st w id s).2.2 = .selfRef
  ∧ (resetFeatureStyle (setFeatureStyle st w id s).1
        (setFeatureStyle st w id s).2.1 id).2.2 = .selfRef
  ∧ ∀ f ln z,
      getFeatureStyle
        (resetFeatureStyle (setFeatureStyle st w id s).1
          (setFeatureStyle st w id s).2.1 id).1 f ln z =
      getFeatureStyle st f ln z := by
  have hst : (resetFeatureStyle (setFeatureStyle st w id s).1
      (setFeatureStyle st w id s).2.1 id).1 = st := by
    simp [setFeatureStyle, resetFeatureStyle, layerSetStyle,
      delKey_setKey_of_absent _ _ _ h]
  refine ⟨by rw [hst], hst, rfl, rfl, ?_⟩
  intro f ln z
  rw [hst]

/-- Feature addition skips whenever the resolved style is falsy, leaving the
tile untouched and creating nothing. -/
theorem addFeature_skip (st : LayerState) (tile : FeatureTile) (f : Feature)
    (ln : String) (px : Rat × Rat)
    (h : truthy (getFeatureStyle st f ln (tile.coords.2.2 : Rat)) = false) :
    addFeature st tile f ln px = (tile, none) := by
  simp [addFeature, h]

/-- Inner tile-population loop is inert when every resolution is undefined. -/
theorem addFeatures_of_undef (st : LayerState) (ln : String) (px : Rat × Rat)
    (fs : List Feature)
    (h : ∀ f ln' z, getFeatureStyle st f ln' z = .undefined) :
    ∀ acc, addFeatures st ln px fs acc = acc := by
  induction fs with
  | nil => intro acc; rfl
  | cons f rest ih =>
    intro acc
    obtain ⟨tile, cs⟩ := acc
    have hskip : addFeature st tile f ln px = (tile, none) :=
      addFeature_skip st tile f ln px (by rw [h]; rfl)
    simp only [addFeatures, hskip]
    simpa using ih (tile, cs)

/-- Outer tile-population loop is inert when every resolution is undefined. -/
theorem addTileLayers_of_undef (st : LayerState) (vt : VTileData)
    (ts : Rat × Rat) (names : List String)
    (h : ∀ f ln' z, getFeatureStyle st f ln' z = .undefined) :
    ∀ acc, addTileLayers st vt ts names acc = acc := by
  induction names with
  | nil => intro acc; rfl
  | cons ln rest ih =>
    intro acc
    simp only [addTileLayers]
    cases hk : getKey vt.layers ln with
    | none => exact ih acc
    | some tl =>
      show addTileLayers st vt ts rest
        (addFeatures st ln (ts.1 / tl.extent, ts.2 / tl.extent)
          tl.features acc) = acc
      rw [addFeatures_of_undef st ln _ tl.features h acc]
      exact ih acc

/-- Bounds folding ignores tiles with no feature layers. -/
theorem boundsFold_of_empty (unproject : Rat × Rat → Int → LatLng)
    (lst : List (String × FeatureTile))
    (h : ∀ e ∈ lst, e.2.layers = ([] : List FeatureGraphics)) :
    ∀ acc, lst.foldl (fun acc e => tileBoundsFold unproject e.2 acc) acc =
      acc := by
  induction lst with
  | nil => intro acc; rfl
  | cons e rest ih =>
    intro acc
    have he : e.2.layers = [] := h e (by simp)
    simp only [List.foldl_cons, tileBoundsFold, he, List.foldl_nil]
    exact ih (fun e' he' => h e' (by simp [he'])) acc

/-- C1 counterexample: the source's `getFeatureStyle` does not call the
configured explicit style function with
`(feature.properties, zoom, feature.geometryType)` — at this input the
source passes the feature object itself (with the layer name and zoom), so
the two resolutions differ. -/
theorem getFeatureStyle_fn_args_counterexample :
    getFeatureStyle c1State sampleFeature "roads" 3 ≠
      getFeatureStyleSpecC1 c1Fn sampleFeature 3 := by
  decide

/-- C1 amended: when the configured explicit style option is a function,
getFeatureStyle invokes it with the feature, the layer name and the zoom
level as its three arguments and yields the function's result (the
configured filter, when present, must accept the feature first). -/
theorem getFeatureStyle_fn_args (st : LayerState)
    (g : Val → Val → Val → Val) (f : Feature) (ln : String) (z : Rat)
    (hstyle : st.options.style = .fn g)
    (hpass : filterPasses st f ln z = true) :
    getFeatureStyle st f ln z = g (featureVal f) (.str ln) (.num z) := by
  simp [getFeatureStyle, hpass, hstyle]

/-- Witness for amended C1 at the concrete state `c1State`. -/
theorem getFeatureStyle_fn_args_witness :
    getFeatureStyle c1State sampleFeature "roads" 3 =
      c1Fn (featureVal sampleFeature) (.str "roads") (.num 3) :=
  getFeatureStyle_fn_args c1State c1Fn sampleFeature "roads" 3 rfl rfl

/-- C3: with a feature-id extractor configured and a truthy override
registered for the extracted id, legacy resolution is determined by the
override alone — a complete replacement of the per-layer entry, whatever the
per-layer table holds. -/
theorem legacyStyle_override_wins (st : LayerState) (gid : Feature → String)
    (f : Feature) (ln : String) (z : Rat) (ov : StyleEntry)
    (hgid : st.options.getFeatureId = some gid)
    (hov : getKey st.featureStyle (gid f) = some ov)
    (ht : entryTruthy ov = true) :
    legacyStyle st f ln z = arrayRule (entryApply ov f.properties z f.type)
  ∧ ∀ tbl, legacyStyle
      { st with options := { st.options with vectorTileLayerStyles := tbl } }
      f ln z = legacyStyle st f ln z := by
  have key : ∀ tbl : Option (List (String × StyleEntry)),
      legacyLookup
        { st with options := { st.options with vectorTileLayerStyles := tbl } }
        f ln = some ov := by
    intro tbl
    simp [legacyLookup, hgid, hov, ht]
  have keySelf : legacyLookup st f ln = some ov := by
    simp [legacyLookup, hgid, hov, ht]
  constructor
  · simp [legacyStyle, legacyStyleRaw, keySelf]
  · intro tbl
    simp [legacyStyle, legacyStyleRaw, keySelf, key tbl]

/-- Witness for C3: the override "B" wins over the per-layer entry "A". -/
theorem legacyStyle_override_wins_witness :
    legacyStyle c3State sampleFeature "roads" 3 = .str "B" := by
  have h := legacyStyle_override_wins c3State (fun _ => "42") sampleFeature
    "roads" 3 (.val (.str "B")) rfl rfl rfl
  simpa [entryApply, arrayRule] using h.1

/-- C4: when legacy resolution reaches an array, an empty array resolves to
undefined and the feature gets no FeatureGraphics, while a non-empty array
resolves to exactly its first element whatever follows it. -/
theorem legacyStyle_array_rule (st : LayerState) (f : Feature) (ln : String)
    (tile : FeatureTile) (px : Rat × Rat)
    (hstyle : st.options.style = .legacy) :
    (legacyStyleRaw st f ln (tile.coords.2.2 : Rat) = .arr .nil →
      legacyStyle st f ln (tile.coords.2.2 : Rat) = .undefined
      ∧ addFeature st tile f ln px = (tile, none))
  ∧ ∀ x rest, legacyStyleRaw st f ln (tile.coords.2.2 : Rat) =
      .arr (.cons x rest) →
      legacyStyle st f ln (tile.coords.2.2 : Rat) = x := by
  constructor
  · intro h
    have hls : legacyStyle st f ln (tile.coords.2.2 : Rat) = .undefined := by
      simp [legacyStyle, h, arrayRule]
    refine ⟨hls, addFeature_skip st tile f ln px ?_⟩
    by_cases hp : filterPasses st f ln (tile.coords.2.2 : Rat) = true <;>
      simp [getFeatureStyle, hp, hstyle, hls, truthy]
  · intro x rest h
    simp [legacyStyle, h, arrayRule]

/-- Witness for C4: the empty array skips the feature entirely, and the
two-element array resolves to its first element. -/
theorem legacyStyle_array_rule_witness :
    addFeature c4StateEmpty sampleTile sampleFeature "roads" (1, 1) =
      (sampleTile, none)
  ∧ legacyStyle c4StateFirst sampleFeature "roads"
      ((sampleTile.coords.2.2 : Int) : Rat) = .str "S1" :=
  ⟨((legacyStyle_array_rule c4StateEmpty sampleFeature "roads" sampleTile
      (1, 1) rfl).1 rfl).2,
   (legacyStyle_array_rule c4StateFirst sampleFeature "roads" sampleTile
      (1, 1) rfl).2 (.str "S1") (.cons (.str "S2") .nil) rfl⟩

/-- C5: a configured filter returning false makes resolution undefined, so
no FeatureGraphics is created for the feature and the feature contributes
neither to the restyle walk nor to getBounds. -/
theorem filter_reject_inert (st : LayerState)
    (p : Feature → String → Rat → Bool) (f : Feature) (ln : String)
    (tile : FeatureTile) (px : Rat × Rat)
    (hfilter : st.options.filter = some p)
    (hrej : p f ln (tile.coords.2.2 : Rat) = false) :
    getFeatureStyle st f ln (tile.coords.2.2 : Rat) = .undefined
  ∧ addFeature st tile f ln px = (tile, none)
  ∧ ∀ (w : World) (id : String) (unproject : Rat × Rat → Int → LatLng),
      allFeatureGraphics
        { w with featureTiles :=
            setKey w.featureTiles id (addFeature st tile f ln px).1 } =
      allFeatureGraphics
        { w with featureTiles := setKey w.featureTiles id tile }
      ∧ getBounds unproject
          { w with featureTiles :=
              setKey w.featureTiles id (addFeature st tile f ln px).1 } =
        getBounds unproject
          { w with featureTiles := setKey w.featureTiles id tile } := by
  have hres : getFeatureStyle st f ln (tile.coords.2.2 : Rat) = .undefined := by
    simp [getFeatureStyle, filterPasses, hfilter, hrej]
  have hskip : addFeature st tile f ln px = (tile, none) :=
    addFeature_skip st tile f ln px (by rw [hres]; rfl)
  exact ⟨hres, hskip, fun w id unproject => by rw [hskip]; exact ⟨rfl, rfl⟩⟩

/-- Witness for C5 at the concrete rejecting filter. -/
theorem filter_reject_inert_witness :
    getFeatureStyle c5State sampleFeature "roads"
      ((sampleTile.coords.2.2 : Int) : Rat) = .undefined
  ∧ addFeature c5State sampleTile sampleFeature "roads" (1, 1) =
      (sampleTile, none) :=
  ⟨(filter_reject_inert c5State (fun _ _ _ => false) sampleFeature "roads"
      sampleTile (1, 1) rfl rfl).1,
   (filter_reject_inert c5State (fun _ _ _ => false) sampleFeature "roads"
      sampleTile (1, 1) rfl rfl).2.1⟩

/-- C10: with neither the style option nor the legacy table configured,
every resolution is undefined, populating any tile creates no
FeatureGraphics, and getBounds of a world of such tiles stays undefined. -/
theorem unstyled_layer_inert (opts : LayerOptions)
    (fs : List (String × StyleEntry))
    (h1 : opts.style = .undefined) (h2 : opts.vectorTileLayerStyles = none) :
    (∀ f ln z, getFeatureStyle ⟨initOptions opts, fs⟩ f ln z = .undefined)
  ∧ (∀ tile vt,
      (addVectorTile ⟨initOptions opts, fs⟩ tile vt).1.layers = tile.layers
      ∧ (addVectorTile ⟨initOptions opts, fs⟩ tile vt).2 = [])
  ∧ ∀ unproject w,
      (∀ e ∈ w.featureTiles, e.2.layers = ([] : List FeatureGraphics)) →
      getBounds unproject w = none := by
  have hinit : initOptions opts = opts := by
    simp [initOptions, h2]
  have hres : ∀ f ln z,
      getFeatureStyle ⟨initOptions opts, fs⟩ f ln z = .undefined := by
    intro f ln z
    by_cases hp : filterPasses ⟨initOptions opts, fs⟩ f ln z = true <;>
      simp [getFeatureStyle, hp, hinit, h1]
  refine ⟨hres, ?_, ?_⟩
  · intro tile vt
    rw [addVectorTile, addTileLayers_of_undef _ _ _ _ hres]
    exact ⟨rfl, rfl⟩
  · intro unproject w hw
    exact boundsFold_of_empty unproject w.featureTiles hw none

/-- Witness for C10 at the default options and a one-tile world. -/
theorem unstyled_layer_inert_witness :
    getFeatureStyle ⟨initOptions {}, []⟩ sampleFeature "roads" 3 = .undefined
  ∧ (addVectorTile ⟨initOptions {}, []⟩ sampleTile sampleVT).2 = []
  ∧ getBounds sampleUnproject ⟨[("0|0|3", sampleTile)], []⟩ = none := by
  have h := unstyled_layer_inert {} [] rfl rfl
  exact ⟨h.1 sampleFeature "roads" 3,
    (h.2.1 sampleTile sampleVT).2,
    h.2.2 sampleUnproject ⟨[("0|0|3", sampleTile)], []⟩
      (by intro e he; simp at he; rw [he]; rfl)⟩

/-- Witness for C9 at a concrete layer state and override. -/
theorem setResetFeatureStyle_restores_witness :
    (resetFeatureStyle
        (setFeatureStyle ⟨{}, []⟩ ⟨[], []⟩ "42" (.val (.str "B"))).1
        (setFeatureStyle ⟨{}, []⟩ ⟨[], []⟩ "42" (.val (.str "B"))).2.1
        "42").1 = ⟨{}, []⟩
  ∧ (setFeatureStyle ⟨{}, []⟩ ⟨[], []⟩ "42" (.val (.str "B"))).2.2 =
      JsRet.selfRef :=
  ⟨(setResetFeatureStyle_restores ⟨{}, []⟩ ⟨[], []⟩ "42" (.val (.str "B"))
      rfl).2.1,
   (setResetFeatureStyle_restores ⟨{}, []⟩ ⟨[], []⟩ "42" (.val (.str "B"))
      rfl).2.2.1⟩

/-- Population by a decoded tile with no layers is inert. -/
theorem addTileLayers_emptyVT (st : LayerState) (ts : Rat × Rat) :
    ∀ (names : List String) (acc : FeatureTile × List FeatureGraphics),
      addTileLayers st ⟨[]⟩ ts names acc = acc := by
  intro names
  induction names with
  | nil => intro acc; rfl
  | cons ln rest ih =>
    intro acc
    simp only [addTileLayers, getKey]
    exact ih acc

/-- C7: a successful response resolves to the tile's bytes; a 404 resolves
to no buffer, which decodes to a tile with no features and completes
without an error; any other non-success status rejects and the rejection is
handed to the host's `done` callback as the tile-load error. -/
theorem load_status_spec (url : String) (r : JsResponse) (st : LayerState)
    (w : World) (coords : Int × Int × Int) (t : FeatureTile)
    (decode : Option (List Nat) → VTileData)
    (hdec : decode none = ⟨[]⟩) :
    (r.ok = true → load url r = .ok (some r.body))
  ∧ (r.ok = false → r.status = 404 →
      load url r = .ok none
      ∧ (tileFetchDone st w coords t (load url r) decode).2 = none
      ∧ (tileFetchDone st w coords t (load url r) decode).1.attached =
          w.attached
      ∧ addVectorTile st t (decode none) = (t, []))
  ∧ (r.ok = false → r.status ≠ 404 →
      load url r = .error (errJoin [url, toString r.status, r.statusText])
      ∧ (tileFetchDone st w coords t (load url r) decode).2 =
          some (errJoin [url, toString r.status, r.statusText])) := by
  refine ⟨?_, ?_, ?_⟩
  · intro hok
    simp [load, hok]
  · intro hok h404
    have hl : load url r = .ok none := by
      simp [load, hok, h404]
    have hvt : addVectorTile st t (decode none) = (t, []) := by
      rw [hdec, addVectorTile, addTileLayers_emptyVT]
    refine ⟨hl, ?_, ?_, hvt⟩ <;>
      simp [tileFetchDone, hl, hvt]
  · intro hok h404
    have hl : load url r =
        .error (errJoin [url, toString r.status, r.statusText]) := by
      simp [load, hok, h404]
    exact ⟨hl, by simp [tileFetchDone, hl]⟩

/-- Witness for C7 at three concrete responses. -/
theorem load_status_spec_witness :
    load "u" r200 = .ok (some [1, 2])
  ∧ load "u" r404 = .ok none
  ∧ (tileFetchDone ⟨{}, []⟩ ⟨[], []⟩ (0, 0, 3) sampleTile
      (load "u" r404) decodeEmpty).2 = none
  ∧ load "u" r500 = .error (errJoin ["u", toString r500.status,
      r500.statusText])
  ∧ (tileFetchDone ⟨{}, []⟩ ⟨[], []⟩ (0, 0, 3) sampleTile
      (load "u" r500) decodeEmpty).2 = some (errJoin ["u",
      toString r500.status, r500.statusText]) := by
  have h200 := load_status_spec "u" r200 ⟨{}, []⟩ ⟨[], []⟩ (0, 0, 3)
    sampleTile decodeEmpty rfl
  have h404 := load_status_spec "u" r404 ⟨{}, []⟩ ⟨[], []⟩ (0, 0, 3)
    sampleTile decodeEmpty rfl
  have h500 := load_status_spec "u" r500 ⟨{}, []⟩ ⟨[], []⟩ (0, 0, 3)
    sampleTile decodeEmpty rfl
  refine ⟨h200.1 rfl, (h404.2.1 rfl rfl).1, (h404.2.1 rfl rfl).2.1,
    (h500.2.2 rfl (by decide)).1, (h500.2.2 rfl (by decide)).2⟩

/-- C2 (code bug): after the tile is unloaded while its fetch is pending,
the late completion still builds the feature's graphics and attaches it —
one attached FeatureGraphics from the discarded session, for the layer
"roads" — while the registry no longer tracks any session that could ever
detach it, and the completion reports no error. -/
theorem staleCompletion_attaches :
    c2Run.1.attached.length = 1
  ∧ c2Run.1.attached.map FeatureGraphics.layerName = ["roads"]
  ∧ c2Run.1.featureTiles = []
  ∧ c2Run.2 = none := by
  refine ⟨rfl, rfl, rfl, rfl⟩

/-- Setting the stroke attribute leaves the non-stroke/fill view unchanged. -/
theorem dropSF_set_stroke (l : List (String × Val)) (v : Val) :
    dropKeys strokeFillKeys (setKey l "stroke" v) =
    dropKeys strokeFillKeys l :=
  dropKeys_setKey_mem strokeFillKeys l v (by decide)

/-- Setting stroke-opacity leaves the non-stroke/fill view unchanged. -/
theorem dropSF_set_strokeOpacity (l : List (String × Val)) (v : Val) :
    dropKeys strokeFillKeys (setKey l "stroke-opacity" v) =
    dropKeys strokeFillKeys l :=
  dropKeys_setKey_mem strokeFillKeys l v (by decide)

/-- Setting stroke-width leaves the non-stroke/fill view unchanged. -/
theorem dropSF_set_strokeWidth (l : List (String × Val)) (v : Val) :
    dropKeys strokeFillKeys (setKey l "stroke-width" v) =
    dropKeys strokeFillKeys l :=
  dropKeys_setKey_mem strokeFillKeys l v (by decide)

/-- Setting stroke-linecap leaves the non-stroke/fill view unchanged. -/
theorem dropSF_set_strokeLinecap (l : List (String × Val)) (v : Val) :
    dropKeys strokeFillKeys (setKey l "stroke-linecap" v) =
    dropKeys strokeFillKeys l :=
  dropKeys_setKey_mem strokeFillKeys l v (by decide)

/-- Setting stroke-linejoin leaves the non-stroke/fill view unchanged. -/
theorem dropSF_set_strokeLinejoin (l : List (String × Val)) (v : Val) :
    dropKeys strokeFillKeys (setKey l "stroke-linejoin" v) =
    dropKeys strokeFillKeys l :=
  dropKeys_setKey_mem strokeFillKeys l v (by decide)

/-- Setting stroke-dasharray leaves the non-stroke/fill view unchanged. -/
theorem dropSF_set_dashArray (l : List (String × Val)) (v : Val) :
    dropKeys strokeFillKeys (setKey l "stroke-dasharray" v) =
    dropKeys strokeFillKeys l :=
  dropKeys_setKey_mem strokeFillKeys l v (by decide)

/-- Removing stroke-dasharray leaves the non-stroke/fill view unchanged. -/
theorem dropSF_del_dashArray (l : List (String × Val)) :
    dropKeys strokeFillKeys (delKey l "stroke-dasharray") =
    dropKeys strokeFillKeys l :=
  dropKeys_delKey_mem strokeFillKeys l (by decide)

/-- Setting stroke-dashoffset leaves the non-stroke/fill view unchanged. -/
theorem dropSF_set_dashOffset (l : List (String × Val)) (v : Val) :
    dropKeys strokeFillKeys (setKey l "stroke-dashoffset" v) =
    dropKeys strokeFillKeys l :=
  dropKeys_setKey_mem strokeFillKeys l v (by decide)

/-- Removing stroke-dashoffset leaves the non-stroke/fill view unchanged. -/
theorem dropSF_del_dashOffset (l : List (String × Val)) :
    dropKeys strokeFillKeys (delKey l "stroke-dashoffset") =
    dropKeys strokeFillKeys l :=
  dropKeys_delKey_mem strokeFillKeys l (by decide)

/-- Setting the fill attribute leaves the non-stroke/fill view unchanged. -/
theorem dropSF_set_fill (l : List (String × Val)) (v : Val) :
    dropKeys strokeFillKeys (setKey l "fill" v) =
    dropKeys strokeFillKeys l :=
  dropKeys_setKey_mem strokeFillKeys l v (by decide)

/-- Setting fill-opacity leaves the non-stroke/fill view unchanged. -/
theorem dropSF_set_fillOpacity (l : List (String × Val)) (v : Val) :
    dropKeys strokeFillKeys (setKey l "fill-opacity" v) =
    dropKeys strokeFillKeys l :=
  dropKeys_setKey_mem strokeFillKeys l v (by decide)

/-- Setting fill-rule leaves the non-stroke/fill view unchanged. -/
theorem dropSF_set_fillRule (l : List (String × Val)) (v : Val) :
    dropKeys strokeFillKeys (setKey l "fill-rule" v) =
    dropKeys strokeFillKeys l :=
  dropKeys_setKey_mem strokeFillKeys l v (by decide)

/-- Applying a path style only touches stroke and fill presentation
attributes: the view of the element outside those keys is unchanged. -/
theorem dropSF_applyPathStyleN (ft : Rat) (p : SvgNode) (style : PathStyle) :
    dropKeys strokeFillKeys (applyPathStyleN ft p style).attrs =
    dropKeys strokeFillKeys p.attrs := by
  simp only [applyPathStyleN, setAttrN, removeAttrN]
  split_ifs <;>
    simp only [dropSF_set_stroke, dropSF_set_strokeOpacity,
      dropSF_set_strokeWidth, dropSF_set_strokeLinecap,
      dropSF_set_strokeLinejoin, dropSF_set_dashArray, dropSF_del_dashArray,
      dropSF_set_dashOffset, dropSF_del_dashOffset, dropSF_set_fill,
      dropSF_set_fillOpacity, dropSF_set_fillRule]

/-- Applying a path style never changes the element's tag. -/
theorem tag_applyPathStyleN (ft : Rat) (p : SvgNode) (style : PathStyle) :
    (applyPathStyleN ft p style).tag = p.tag := by
  simp only [applyPathStyleN, setAttrN, removeAttrN]
  split_ifs <;> rfl

/-- Applying a path style preserves every attribute outside the stroke and
fill keys, in particular the path data. -/
theorem getKey_applyPathStyleN_not_mem (ft : Rat) (p : SvgNode)
    (style : PathStyle) (k : String) (h : k ∉ strokeFillKeys) :
    getKey (applyPathStyleN ft p style).attrs k = getKey p.attrs k := by
  rw [← getKey_dropKeys_not_mem strokeFillKeys (applyPathStyleN ft p style).attrs h,
    dropSF_applyPathStyleN,
    getKey_dropKeys_not_mem strokeFillKeys p.attrs h]

/-- C6 amended: an interactive LineString builds one group holding exactly
two coincident paths — the visible path carrying the resolved style and an
interaction path with stroke weight interactionWeight (default 10) and
opacity 0.20 — whose path data agree; the two paths can differ only in
stroke and fill presentation attributes. -/
theorem interactiveLine_two_paths (f : Feature) (px : Rat × Rat)
    (style : PathStyle) (b : PathLayerBuilt) (ip : SvgNode) (dv : Val)
    (htype : f.type = featureTypeLineString)
    (hint : optTruthy style.interactive = true)
    (hb : b = buildPathFeature f px style)
    (hip : b.interactionPath = some ip)
    (hdv : dv = pointsToPath (f.geometry.map (fun ring =>
      ring.map (fun p => scalePoint p px))) false) :
    b.grouped = true
  ∧ graphicsOf b = .group b.groupAttrs [b.visiblePath, ip]
  ∧ b.visiblePath.tag = "path"
  ∧ ip.tag = "path"
  ∧ getKey b.visiblePath.attrs "d" = some dv
  ∧ getKey ip.attrs "d" = some dv
  ∧ getKey ip.attrs "stroke-width" =
      some (jsOr style.interactionWeight (.num 10))
  ∧ getKey ip.attrs "stroke-opacity" = some (.num (1/5))
  ∧ dropKeys strokeFillKeys b.visiblePath.attrs =
      dropKeys strokeFillKeys ip.attrs := by
  have hne : featureTypeLineString ≠ featureTypePolygon := by decide
  have hclosed : (decide (featureTypeLineString = featureTypePolygon)) =
      false := by decide
  have hcreate : featurePathLayerCreate f px style =
      { visiblePath := ⟨"path", [("d", dv)]⟩,
        interactionPath := some (applyPathStyleN f.type
          ⟨"path", [("d", dv)]⟩
          { opacity := some (.num (1/5)),
            weight := some (jsOr style.interactionWeight (.num 10)) }),
        groupAttrs := [], grouped := true } := by
    rw [featurePathLayerCreate]
    simp [htype, hint, hclosed, setAttrN, setKey, hdv]
  have hbval : b =
      { visiblePath := applyPathStyleN f.type ⟨"path", [("d", dv)]⟩ style,
        interactionPath := some (applyPathStyleN f.type
          ⟨"path", [("d", dv)]⟩
          { opacity := some (.num (1/5)),
            weight := some (jsOr style.interactionWeight (.num 10)) }),
        groupAttrs := applyBasicStyleAttrs [] style,
        grouped := true } := by
    rw [hb, buildPathFeature, hcreate]
    simp [featurePathLayerSetStyle]
  have hipc : applyPathStyleN f.type ⟨"path", [("d", dv)]⟩
      { opacity := some (.num (1/5)),
        weight := some (jsOr style.interactionWeight (.num 10)) } =
      ⟨"path",
        [("d", dv), ("stroke", .str "#3388ff"),
         ("stroke-opacity", .num (1/5)),
         ("stroke-width", jsOr style.interactionWeight (.num 10)),
         ("stroke-linecap", .str "round"),
         ("stroke-linejoin", .str "round"),
         ("fill", .str "none")]⟩ := by
    rw [htype]
    simp [applyPathStyleN, extendStyle, pathPrototypeOptions, hne,
      optTruthy, truthy, setAttrN, removeAttrN, setKey, delKey]
  have hipval : ip = applyPathStyleN f.type ⟨"path", [("d", dv)]⟩
      { opacity := some (.num (1/5)),
        weight := some (jsOr style.interactionWeight (.num 10)) } := by
    rw [hbval] at hip
    exact (Option.some.inj hip).symm
  rw [hbval, hipval, hipc]
  refine ⟨rfl, by simp [graphicsOf, hbval, hipval, hipc], ?_, rfl, ?_, ?_,
    ?_, ?_, ?_⟩
  · rw [tag_applyPathStyleN]
  · rw [getKey_applyPathStyleN_not_mem _ _ _ _ (by decide)]
    simp [getKey]
  · simp [getKey]
  · simp [getKey]
  · simp [getKey]
  · rw [dropSF_applyPathStyleN]
    simp [dropKeys, strokeFillKeys, strokeAttrKeys, fillAttrKeys]

/-- Witness for amended C6 at the sample feature and `c6Style`. -/
theorem interactiveLine_two_paths_witness :
    (buildPathFeature sampleFeature (1, 1) c6Style).grouped = true
  ∧ getKey (buildPathFeature sampleFeature (1, 1) c6Style).visiblePath.attrs
      "d" = some c6DV
  ∧ getKey c6IP.attrs "d" = some c6DV
  ∧ getKey c6IP.attrs "stroke-width" =
      some (jsOr c6Style.interactionWeight (.num 10))
  ∧ getKey c6IP.attrs "stroke-opacity" = some (.num (1/5)) := by
  have h := interactiveLine_two_paths sampleFeature (1, 1) c6Style
    (buildPathFeature sampleFeature (1, 1) c6Style) c6IP c6DV rfl rfl rfl
    rfl rfl
  exact ⟨h.1, h.2.2.2.2.1, h.2.2.2.2.2.1, h.2.2.2.2.2.2.1,
    h.2.2.2.2.2.2.2.1⟩

/-- C6 counterexample: the two coincident paths of an interactive line do
not differ only in stroke style — for a fill-enabled resolved style the
visible path carries the style's fill while the interaction path's fill is
"none", so the two paths differ in a fill attribute as well. -/
theorem interactiveLine_not_only_stroke :
    getKey (buildPathFeature sampleFeature (1, 1)
        c6FillStyle).visiblePath.attrs "fill" = some (.str "red")
  ∧ getKey ((buildPathFeature sampleFeature (1, 1)
        c6FillStyle).interactionPath.getD ⟨"path", []⟩).attrs "fill" =
      some (.str "none")
  ∧ dropKeys strokeAttrKeys (buildPathFeature sampleFeature (1, 1)
        c6FillStyle).visiblePath.attrs ≠
      dropKeys strokeAttrKeys ((buildPathFeature sampleFeature (1, 1)
        c6FillStyle).interactionPath.getD ⟨"path", []⟩).attrs := by
  refine ⟨rfl, rfl, ?_⟩
  intro h
  have h2 := congrArg (fun l => getKey l "fill") h
  simp only at h2
  rw [getKey_dropKeys_not_mem strokeAttrKeys _ (by decide),
    getKey_dropKeys_not_mem strokeAttrKeys _ (by decide)] at h2
  rw [show getKey (buildPathFeature sampleFeature (1, 1)
        c6FillStyle).visiblePath.attrs "fill" = some (.str "red") from rfl,
    show getKey ((buildPathFeature sampleFeature (1, 1)
        c6FillStyle).interactionPath.getD ⟨"path", []⟩).attrs "fill" =
      some (.str "none") from rfl] at h2
  simp at h2

end VTL


